import Mathlib

/-
Verification of the rugby-backend reconciliation pipeline.

This file gives a shallow embedding of the pure cores of the repository:
the team-name normalizers, the scraped-row constructors, the
reconciliation loops of the two results updaters, the fixture upsert and
refresh store transformations, the windowed scrape loop and the
prediction scorer.  JavaScript strings are Lean String values; JavaScript
numbers that the code uses as integers are Nat or Int; absent or null
fields are Option.  Epoch timestamps are Int milliseconds, standing in
for the ISO strings the code stores, which determine and are determined
by their timestamp.  Network fetches are modeled as oracle functions
returning Option, where none stands for a thrown error or a non-success
HTTP status.
-/

-- ===== JavaScript string primitives =====

/-- Whitespace characters removed by the JavaScript trim used in the
normalizers, restricted to the characters that occur in the data. -/
def isJsSpace (c : Char) : Bool :=
  c = (' ') || c = ('\t') || c = ('\n') || c = ('\r')

/-- Drop leading and trailing whitespace of a character list. -/
def trimChars (l : List Char) : List Char :=
  ((l.dropWhile isJsSpace).reverse.dropWhile isJsSpace).reverse

/-- Model of JavaScript String.prototype.trim. -/
def jsTrim (s : String) : String := String.mk (trimChars s.data)

/-- Model of JavaScript String.prototype.toLowerCase, per character. -/
def jsLower (s : String) : String := String.mk (s.data.map Char.toLower)

/-- Case-insensitive equality as used by the alias lookups, which
compare toLowerCase images. -/
def lowerEq (a b : String) : Bool := jsLower a == jsLower b

/-- Lexicographic comparison of character lists, the order JavaScript
Array.prototype.sort applies to strings (code-unit order, which agrees
with code-point order on the data of this repository). -/
def charListLe : List Char → List Char → Bool
  | [], _ => true
  | _ :: _, [] => false
  | a :: as_, b :: bs => if a = b then charListLe as_ bs else decide (a < b)

/-- Sort a pair of team names the way [a, b].sort() does. -/
def sortPair (a b : String) : String × String :=
  if charListLe a.data b.data then (a, b) else (b, a)

-- ===== Data model =====

/-- Stored result of a fixture, src/server.js initializes it to
winner null and margin null; the updaters write a winner string and a
numeric margin. -/
structure MatchResult where
  winner : Option String
  margin : Option Nat
deriving DecidableEq

/-- A stored fixture, matches.json entries.  Only the fields read by the
reconciliation, import and scoring code are modeled. -/
structure MatchRec where
  id : Nat
  competitionId : Nat
  teamA : String
  teamB : String
  kickoff : Int
  result : Option MatchResult
deriving DecidableEq

/-- Truthiness check of src/utils/resultsUpdater.cjs line 361: the
fixture counts as already resolved when it has a result whose winner is
not null. -/
def hasResolvedWinner (m : MatchRec) : Bool :=
  match m.result with
  | some r => r.winner.isSome
  | none => false

/-- One entry of team-aliases.json: a canonical name and its known
alternate spellings, iterated in insertion order by Object.entries. -/
structure AliasEntry where
  official : String
  aliases : List String
deriving DecidableEq

/-- A user prediction, restricted to the fields recalcPointsForMatch in
src/unnamed/part_003 reads: p.winner and p.margin. -/
structure Prediction where
  winner : String
  margin : Nat
deriving DecidableEq

-- ===== Name Normalizer (src/unnamed/part_005, src/utils/updateResultsFromSources.js) =====

/-- One iteration step of the normalizeTeamName loop: the entry hits
when its official name or one of its aliases equals the cleaned input
case-insensitively. -/
def entryHit (name : String) (e : AliasEntry) : Bool :=
  lowerEq e.official name || e.aliases.any (fun al => lowerEq al name)

/-- normalizeTeamName of src/unnamed/part_005 lines 21 to 30: trim the
raw name, return the official name of the first entry whose official
name or alias matches case-insensitively, else the trimmed name. -/
def normalizeTeamName (table : List AliasEntry) (raw : String) : String :=
  let name := jsTrim raw
  match table.find? (entryHit name) with
  | some e => e.official
  | none => name

-- ===== Strict normalizer and team comparison (src/utils/resultsUpdater.cjs lines 218 to 232) =====

/-- Characters kept by the final replace of normalizeTeam: lowercase
ASCII letters and digits. -/
def isLowerAlnum (c : Char) : Bool :=
  (decide (('a') ≤ c) && decide (c ≤ ('z'))) ||
  (decide (('0') ≤ c) && decide (c ≤ ('9')))

/-- normalizeTeam of src/utils/resultsUpdater.cjs lines 218 to 226:
lowercase and strip every character outside a to z and 0 to 9.  The
emoji strip and the NFKD accent fold of the source only remove further
characters that this final filter already removes for the embedded
character set. -/
def normalizeTeam (s : String) : String :=
  String.mk ((s.data.map Char.toLower).filter isLowerAlnum)

/-- sameTeams of src/utils/resultsUpdater.cjs lines 228 to 232: the two
stored names equal the two scraped names under normalizeTeam, in either
orientation. -/
def sameTeams (a1 a2 b1 b2 : String) : Bool :=
  (normalizeTeam a1 == normalizeTeam b1 && normalizeTeam a2 == normalizeTeam b2) ||
  (normalizeTeam a1 == normalizeTeam b2 && normalizeTeam a2 == normalizeTeam b1)

-- ===== Scraped rows =====

/-- A scraped row of fetchBBCResults in src/utils/resultsUpdater.cjs
lines 267 to 295: date of the scraped page, the two team names, the two
final scores, and the derived winner and margin. -/
structure CjsScraped where
  date : Int
  teamA : String
  teamB : String
  scoreA : Nat
  scoreB : Nat
  winner : Option String
  margin : Option Nat
deriving DecidableEq

/-- Row construction of fetchBBCResults, src/utils/resultsUpdater.cjs
lines 282 to 295: the higher score wins by the score difference, equal
scores give winner null and margin 0. -/
def mkCjsRow (d : Int) (t1 t2 : String) (s1 s2 : Nat) : CjsScraped :=
  if s1 > s2 then ⟨d, t1, t2, s1, s2, some t1, some (s1 - s2)⟩
  else if s2 > s1 then ⟨d, t1, t2, s1, s2, some t2, some (s2 - s1)⟩
  else ⟨d, t1, t2, s1, s2, none, some 0⟩

/-- A scraped row of fetchBBCResultsForDate in
src/utils/updateResultsFromSources.js lines 46 to 56: home and away are
stored normalized, winner is a plain string. -/
structure UrfsRow where
  date : Int
  home : String
  away : String
  homeScore : Nat
  awayScore : Nat
  winner : String
deriving DecidableEq

/-- Row construction of src/utils/updateResultsFromSources.js lines
48 to 55: winner is the normalized home name when homeScore exceeds
awayScore, else the normalized away name. -/
def mkUrfsRow (table : List AliasEntry) (d : Int) (home away : String) (hs aw : Nat) : UrfsRow :=
  ⟨d, normalizeTeamName table home, normalizeTeamName table away, hs, aw,
    if hs > aw then normalizeTeamName table home else normalizeTeamName table away⟩

/-- The per-match lookup of src/utils/updateResultsFromSources.js lines
86 to 90: find the first scraped row whose normalized home name equals
the normalized teamA and whose normalized away name equals the
normalized teamB, in that orientation only. -/
def urfsFindFor (table : List AliasEntry) (rows : List UrfsRow) (m : MatchRec) : Option UrfsRow :=
  rows.find? (fun r =>
    normalizeTeamName table r.home == normalizeTeamName table m.teamA &&
    normalizeTeamName table r.away == normalizeTeamName table m.teamB)

/-- A scraped row of fetchBBCResultsForDate in src/utils/teamAliases.js
lines 72 to 97: winner is a team name, or the literal string draw when
the scores are equal; margin is the absolute score difference. -/
structure TAScraped where
  teamA : String
  teamB : String
  scoreA : Nat
  scoreB : Nat
  winner : String
  margin : Nat
deriving DecidableEq

-- ===== Reconciler of src/utils/resultsUpdater.cjs lines 348 to 391 =====

/-- The 36 hour kickoff tolerance of src/utils/resultsUpdater.cjs line
355, in milliseconds: the record is considered only when the stored
kickoff is within 36 hours of the scraped page date. -/
def withinDay (kickoff date : Int) : Bool :=
  decide ((kickoff - date).natAbs ≤ 129600000)

/-- The body of the inner loop of updateResultsFromSources in
src/utils/resultsUpdater.cjs lines 352 to 374 for one stored match and
one scraped record: skip matches with missing fields, skip records out
of the kickoff tolerance or with different teams, and attach the result
and count one update only when the match has no resolved winner and the
record has a non-null winner. -/
def updateOne (r : CjsScraped) (m : MatchRec) : MatchRec × Nat :=
  if m.kickoff == 0 || m.teamA == ("") || m.teamB == ("") then (m, 0)
  else if withinDay m.kickoff r.date && sameTeams m.teamA m.teamB r.teamA r.teamB then
    if !(hasResolvedWinner m) && r.winner.isSome then
      ({ m with result := some ⟨r.winner, r.margin⟩ }, 1)
    else (m, 0)
  else (m, 0)

/-- Accumulating step rebuilding the mutated matches array together with
the running updated counter. -/
def procStep (r : CjsScraped) (acc : List MatchRec × Nat) (m : MatchRec) : List MatchRec × Nat :=
  (acc.1 ++ [(updateOne r m).1], acc.2 + (updateOne r m).2)

/-- Effect of one scraped record on the whole store: the inner for loop
over matches of src/utils/resultsUpdater.cjs lines 352 to 376. -/
def processRecord (ms : List MatchRec) (r : CjsScraped) : List MatchRec × Nat :=
  ms.foldl (procStep r) ([], 0)

/-- The outer for loop over scraped records of
src/utils/resultsUpdater.cjs lines 350 to 376, returning the updated
store and the updated counter. -/
def runRecords (ms : List MatchRec) (rs : List CjsScraped) : List MatchRec × Nat :=
  rs.foldl (fun acc r => ((processRecord acc.1 r).1, acc.2 + (processRecord acc.1 r).2)) (ms, 0)

-- ===== Reconciler of src/utils/teamAliases.js lines 146 to 177 =====

/-- The match predicate of the find call in src/utils/teamAliases.js
lines 152 to 160: both normalized scraped names equal the normalized
stored names, in either orientation. -/
def taMatchPred (table : List AliasEntry) (r : TAScraped) (m : MatchRec) : Bool :=
  (normalizeTeamName table r.teamA == normalizeTeamName table m.teamA &&
   normalizeTeamName table r.teamB == normalizeTeamName table m.teamB) ||
  (normalizeTeamName table r.teamA == normalizeTeamName table m.teamB &&
   normalizeTeamName table r.teamB == normalizeTeamName table m.teamA)

/-- The assignment of src/utils/teamAliases.js lines 163 to 166: the
found match gets the scraped result, with no check of an existing
result. -/
def taSetResult (table : List AliasEntry) (r : TAScraped) (m : MatchRec) : MatchRec :=
  { m with result := some ⟨some (normalizeTeamName table r.winner), some r.margin⟩ }

/-- Apply f to the first list element satisfying p, reporting whether
one was found: the Array.prototype.find call followed by the in-place
mutation. -/
def setFirst (p : MatchRec → Bool) (f : MatchRec → MatchRec) : List MatchRec → List MatchRec × Bool
  | [] => ([], false)
  | m :: ms =>
    if p m then (f m :: ms, true)
    else
      ((m :: (setFirst p f ms).1), (setFirst p f ms).2)

/-- Effect of one scraped record in src/utils/teamAliases.js lines
148 to 172: overwrite the result of the first matching stored fixture
and count one update when a match was found. -/
def taProcessRecord (table : List AliasEntry) (ms : List MatchRec) (r : TAScraped) :
    List MatchRec × Nat :=
  ((setFirst (taMatchPred table r) (taSetResult table r) ms).1,
   if (setFirst (taMatchPred table r) (taSetResult table r) ms).2 then 1 else 0)

/-- The full update loop of updateResultsFromSources in
src/utils/teamAliases.js lines 146 to 177: fold the per-record effect
over the scraped list, summing the update counter. -/
def taUpdateRun (table : List AliasEntry) (ms : List MatchRec) (rs : List TAScraped) :
    List MatchRec × Nat :=
  rs.foldl (fun acc r =>
    ((taProcessRecord table acc.1 r).1, acc.2 + (taProcessRecord table acc.1 r).2)) (ms, 0)

-- ===== Fixture upsert (src/server.js lines 196 to 216) =====

/-- The dedup key of upsertMatchesForCompetition, src/server.js lines
200 to 205: competition id, the raw kickoff, and the two team names in
sorted order.  The source joins these with a separator into one string;
the tuple carries the same identity. -/
def mkey (m : MatchRec) : Nat × Int × String × String :=
  (m.competitionId, m.kickoff, sortPair m.teamA m.teamB)

/-- Id assignment of src/server.js line 208: one more than the maximal
existing id, or 1 on an empty store. -/
def nextId (ms : List MatchRec) : Nat :=
  ms.foldl (fun acc m => max acc m.id) 0 + 1

/-- One iteration of the upsert loop, src/server.js lines 204 to 212:
skip the candidate when its key is already present, else assign an id,
append it, and count it as added. -/
def upsertStep (acc : List MatchRec × Nat) (m : MatchRec) : List MatchRec × Nat :=
  if mkey m ∈ acc.1.map mkey then acc
  else (acc.1 ++ [{ m with id := nextId acc.1 }], acc.2 + 1)

/-- upsertMatchesForCompetition of src/server.js lines 196 to 216,
returning the merged store and the number of candidates added.  The
source seeds its seen set with the keys of the stored matches and keeps
it equal to the key set of the growing array, which the fold models
directly. -/
def upsertMatchesForCompetition (stored feed : List MatchRec) : List MatchRec × Nat :=
  feed.foldl upsertStep (stored, 0)

-- ===== Competition refresh (src/server.js lines 750 to 784 and 234 to 272) =====

/-- A freshly parsed calendar match of the refresh route, src/server.js
lines 767 to 776: a new id, the competition id, the split team names,
the kickoff, and a result with winner null and margin null. -/
def mkParsedRefreshMatch (newId compId : Nat) (tA tB : String) (kick : Int) : MatchRec :=
  ⟨newId, compId, tA, tB, kick, some ⟨none, none⟩⟩

/-- The store transformation of the refresh route, src/server.js lines
781 to 783: keep every match of other competitions and append the
freshly parsed matches in place of the old ones. -/
def refreshReplace (allMatches : List MatchRec) (compId : Nat) (parsed : List MatchRec) :
    List MatchRec :=
  allMatches.filter (fun m => m.competitionId != compId) ++ parsed

-- ===== Windowed scrape (src/unnamed/part_000 lines 20 to 29 and 63 to 76) =====

/-- getDatesInRange of src/unnamed/part_000 lines 20 to 29: the dates
from center minus back to center plus forward inclusive, as day
offsets. -/
def getDatesInRange (center : Int) (back fwd : Nat) : List Int :=
  (List.range (back + fwd + 1)).map (fun i => center - (back : Int) + (i : Int))

/-- The scrape loop of updateResultsFromSources, src/unnamed/part_000
lines 68 to 76: fetch each date, append the rows on success, and on a
thrown error log and continue with the next date.  The oracle returns
none for a network error or non-success HTTP status. -/
def fetchWindowLoop {σ : Type} (fetch : Int → Option (List σ)) (dates : List Int) : List σ :=
  dates.foldl (fun acc d =>
    match fetch d with
    | some rs => acc ++ rs
    | none => acc) []

/-- The windowed scrape: the loop applied to the dates of the requested
window. -/
def scrapeWindow {σ : Type} (fetch : Int → Option (List σ)) (center : Int) (back fwd : Nat) :
    List σ :=
  fetchWindowLoop fetch (getDatesInRange center back fwd)

-- ===== Scorer (src/unnamed/part_003 lines 10 to 20) =====

/-- The margin condition of line 14 of src/unnamed/part_003: the stored
margin must be truthy, so a null or zero margin never awards the exact
tier, and the predicted margin must equal it. -/
def marginHit (resMargin : Option Nat) (predMargin : Nat) : Bool :=
  match resMargin with
  | some v => if v = 0 then false else decide (predMargin = v)
  | none => false

/-- The per-prediction points assignment of recalcPointsForMatch,
src/unnamed/part_003 lines 12 to 17: 3 for the correct winner with a
truthy exact margin, 2 for the correct winner otherwise, 0 for a wrong
winner. -/
def recalcPredPoints (resWinner : String) (resMargin : Option Nat) (p : Prediction) : Nat :=
  if p.winner = resWinner then (if marginHit resMargin p.margin then 3 else 2) else 0

-- ===== Concrete inputs for the closed theorems =====

/-- A stored fixture that already carries a confirmed result. -/
def taFixtureResolved : MatchRec :=
  ⟨1, 1, ("Leinster"), ("Munster"), 1728000000000, some ⟨some ("Leinster"), some 6⟩⟩

/-- The same stored fixture without a result. -/
def taFixtureOpen : MatchRec :=
  ⟨1, 1, ("Leinster"), ("Munster"), 1728000000000, none⟩

/-- A scraped record claiming a Munster win by 10. -/
def taRecMunsterWin : TAScraped :=
  ⟨("Leinster"), ("Munster"), 10, 20, ("Munster"), 10⟩

/-- A scraped record of a Leinster win by 6. -/
def taRecLeinsterWin : TAScraped :=
  ⟨("Leinster"), ("Munster"), 24, 18, ("Leinster"), 6⟩

/-- An alias table in which the canonical name of the second entry is
listed as an alias of the first entry. -/
def aliasChainTable : List AliasEntry :=
  [⟨("A"), [("B")]⟩, ⟨("B"), [("x")]⟩]

/-- A small well-formed alias table. -/
def aliasDemoTable : List AliasEntry :=
  [⟨("Leinster"), [("Leinster Rugby")]⟩]

/-- A calendar candidate for the first import. -/
def c5First : MatchRec :=
  ⟨0, 1, ("Leinster"), ("Munster"), 1728000000000, some ⟨none, none⟩⟩

/-- The same event on the second import, with the kickoff drifted by 12
hours, well within the 48 hour bucket of the first kickoff. -/
def c5Drifted : MatchRec :=
  ⟨0, 1, ("Leinster"), ("Munster"), 1728043200000, some ⟨none, none⟩⟩

/-- The freshly parsed replacement match of the refresh route for the
same event as taFixtureResolved. -/
def c8Fresh : MatchRec :=
  mkParsedRefreshMatch 999 1 ("Leinster") ("Munster") 1728000000000

/-- A stored fixture for the orientation test. -/
def c6Fixture : MatchRec :=
  ⟨1, 1, ("Leinster"), ("Munster"), 0, none⟩

/-- A scraped row with home Leinster 24, away Munster 18. -/
def c6RowLM : UrfsRow := mkUrfsRow [] 0 ("Leinster") ("Munster") 24 18

/-- The same game scraped with the teams and scores swapped. -/
def c6RowML : UrfsRow := mkUrfsRow [] 0 ("Munster") ("Leinster") 18 24

-- ===== Helper lemmas on trimming =====

theorem dropWhile_isJsSpace_idem (l : List Char) :
    (l.dropWhile isJsSpace).dropWhile isJsSpace = l.dropWhile isJsSpace := by
  induction l with
  | nil => rfl
  | cons a t ih =>
    cases hp : isJsSpace a with
    | true =>
      rw [List.dropWhile_cons]
      simp only [hp, if_true]
      exact ih
    | false =>
      rw [List.dropWhile_cons]
      simp only [hp, if_false, Bool.false_eq_true]
      rw [List.dropWhile_cons]
      simp only [hp, if_false, Bool.false_eq_true]

theorem length_dropWhile_le_self (p : Char → Bool) (l : List Char) :
    (l.dropWhile p).length ≤ l.length := by
  induction l with
  | nil => simp
  | cons a t ih =>
    cases hp : p a with
    | true =>
      calc ((a :: t).dropWhile p).length = (t.dropWhile p).length := by simp [List.dropWhile, hp]
        _ ≤ t.length := ih
        _ ≤ (a :: t).length := by simp
    | false => simp [List.dropWhile, hp]

theorem dropWhile_eq_self_of_append (p : Char → Bool) (u s : List Char)
    (ht : (u ++ s).dropWhile p = u ++ s) : u.dropWhile p = u := by
  cases u with
  | nil => rfl
  | cons a v =>
    cases hp : p a with
    | false => simp [List.dropWhile, hp]
    | true =>
      exfalso
      have h1 : ((a :: v) ++ s).dropWhile p = (v ++ s).dropWhile p := by
        simp [List.dropWhile, hp]
      rw [ht] at h1
      have h2 := length_dropWhile_le_self p (v ++ s)
      rw [← h1] at h2
      simp at h2

theorem trimChars_idem (l : List Char) : trimChars (trimChars l) = trimChars l := by
  have h0 := List.takeWhile_append_dropWhile isJsSpace (l.dropWhile isJsSpace).reverse
  have hsplit :
      trimChars l ++ ((l.dropWhile isJsSpace).reverse.takeWhile isJsSpace).reverse =
        l.dropWhile isJsSpace := by
    show ((l.dropWhile isJsSpace).reverse.dropWhile isJsSpace).reverse ++
        ((l.dropWhile isJsSpace).reverse.takeWhile isJsSpace).reverse =
      l.dropWhile isJsSpace
    rw [← List.reverse_append, h0, List.reverse_reverse]
  have hfront : (trimChars l).dropWhile isJsSpace = trimChars l := by
    refine dropWhile_eq_self_of_append isJsSpace (trimChars l)
      (((l.dropWhile isJsSpace).reverse.takeWhile isJsSpace).reverse) ?_
    rw [hsplit]
    exact dropWhile_isJsSpace_idem l
  have hback : (trimChars l).reverse.dropWhile isJsSpace = (trimChars l).reverse := by
    have hr : (trimChars l).reverse = (l.dropWhile isJsSpace).reverse.dropWhile isJsSpace := by
      simp [trimChars]
    rw [hr]
    exact dropWhile_isJsSpace_idem (l.dropWhile isJsSpace).reverse
  have e1 : trimChars (trimChars l) = ((trimChars l).reverse.dropWhile isJsSpace).reverse := by
    show (((trimChars l).dropWhile isJsSpace).reverse.dropWhile isJsSpace).reverse =
      ((trimChars l).reverse.dropWhile isJsSpace).reverse
    rw [hfront]
  rw [e1, hback, List.reverse_reverse]

theorem jsTrim_idem (s : String) : jsTrim (jsTrim s) = jsTrim s := by
  show String.mk (trimChars (String.mk (trimChars s.data)).data) = String.mk (trimChars s.data)
  rw [show (String.mk (trimChars s.data)).data = trimChars s.data from rfl, trimChars_idem]

-- ===== C7: normalization idempotence =====

/-- C7 counterexample: with an alias table in which the canonical name
of one entry is listed as an alias of an earlier entry, normalizeTeamName
is not idempotent: the input x normalizes to B, but normalizing B again
yields A.  The claim quantifies over every loaded alias table, so this
table refutes it. -/
theorem c7_alias_chain_not_idempotent :
    normalizeTeamName aliasChainTable (("x")) = ("B") ∧
    normalizeTeamName aliasChainTable (normalizeTeamName aliasChainTable (("x"))) = ("A") ∧
    ¬ normalizeTeamName aliasChainTable (normalizeTeamName aliasChainTable (("x"))) =
        normalizeTeamName aliasChainTable (("x")) := by
  decide

/-- C7 (amended): normalizeTeamName is idempotent for every input
string, for every alias table whose canonical names are themselves fixed
points of normalizeTeamName, which holds for every well-formed table in
which no canonical name matches an earlier entry case-insensitively and
canonical names carry no surrounding whitespace.  Unknown names pass
through trimmed, and trimming is idempotent, so the unknown branch needs
no condition on the table. -/
theorem c7_normalize_idempotent_amended (table : List AliasEntry) (x : String)
    (h : table.all (fun e => normalizeTeamName table e.official == e.official) = true) :
    normalizeTeamName table (normalizeTeamName table x) = normalizeTeamName table x := by
  have hfix : ∀ e ∈ table, normalizeTeamName table e.official = e.official := by
    intro e he
    have hb := List.all_eq_true.mp h e he
    exact eq_of_beq hb
  cases hf : table.find? (entryHit (jsTrim x)) with
  | some e =>
    have h1 : normalizeTeamName table x = e.official := by
      simp [normalizeTeamName, hf]
    rw [h1]
    exact hfix e (List.mem_of_find?_eq_some hf)
  | none =>
    have h1 : normalizeTeamName table x = jsTrim x := by
      simp [normalizeTeamName, hf]
    rw [h1]
    simp [normalizeTeamName, jsTrim_idem, hf]

/-- C7 witness: the amended theorem applied to a concrete well-formed
table and a concrete alias spelling with noise whitespace. -/
theorem c7_normalize_idempotent_amended_witness :
    (aliasDemoTable.all
      (fun e => normalizeTeamName aliasDemoTable e.official == e.official) = true) ∧
    normalizeTeamName aliasDemoTable
        (normalizeTeamName aliasDemoTable ((" leinster rugby "))) =
      normalizeTeamName aliasDemoTable ((" leinster rugby ")) :=
  ⟨by decide, c7_normalize_idempotent_amended aliasDemoTable ((" leinster rugby ")) (by decide)⟩

-- ===== C3: scored-row outcome =====

/-- C3 counterexample: the extractor of
src/utils/updateResultsFromSources.js declares the normalized away team
the winner when the two scores are equal; it has no draw outcome at all,
so the claim that equal scores yield a null winner fails on this cited
extractor. -/
theorem c3_urfs_tie_declares_away_winner :
    (mkUrfsRow [] 0 (("Leinster")) (("Munster")) 10 10).homeScore =
      (mkUrfsRow [] 0 (("Leinster")) (("Munster")) 10 10).awayScore ∧
    (mkUrfsRow [] 0 (("Leinster")) (("Munster")) 10 10).winner = ("Munster") ∧
    ¬ (mkUrfsRow [] 0 (("Leinster")) (("Munster")) 10 10).winner = ("Leinster") := by
  decide

/-- C3 (amended): for every scored row produced by fetchBBCResults in
src/utils/resultsUpdater.cjs the claim holds as stated: the higher score
wins, equal scores give a null winner, and the margin is the absolute
score difference; the extractor of updateResultsFromSources.js instead
declares the away team winner on equal scores, and the one of
teamAliases.js yields the literal string draw. -/
theorem c3_cjs_outcome (d : Int) (t1 t2 : String) (s1 s2 : Nat) :
    (s1 > s2 → (mkCjsRow d t1 t2 s1 s2).winner = some t1 ∧
      (mkCjsRow d t1 t2 s1 s2).margin = some (s1 - s2)) ∧
    (s2 > s1 → (mkCjsRow d t1 t2 s1 s2).winner = some t2 ∧
      (mkCjsRow d t1 t2 s1 s2).margin = some (s2 - s1)) ∧
    (s1 = s2 → (mkCjsRow d t1 t2 s1 s2).winner = none ∧
      (mkCjsRow d t1 t2 s1 s2).margin = some 0) := by
  refine ⟨?_, ?_, ?_⟩
  · intro h
    simp [mkCjsRow, h]
  · intro h
    have h2 : ¬ s1 > s2 := by omega
    simp [mkCjsRow, h, h2]
  · intro h
    subst h
    simp [mkCjsRow]

/-- C3 witness: the amended theorem applied to a 24 to 18 result. -/
theorem c3_cjs_outcome_witness :
    (24 : Nat) > 18 ∧
    (mkCjsRow 0 (("Leinster")) (("Munster")) 24 18).winner = some (("Leinster")) ∧
    (mkCjsRow 0 (("Leinster")) (("Munster")) 24 18).margin = some 6 :=
  ⟨by decide,
   ((c3_cjs_outcome 0 (("Leinster")) (("Munster")) 24 18).1 (by decide)).1,
   ((c3_cjs_outcome 0 (("Leinster")) (("Munster")) 24 18).1 (by decide)).2⟩

-- ===== C4: scorer tiers =====

/-- C4 counterexample: a present result with winner Leinster and margin
0, and a prediction of Leinster with margin 0: the predicted winner and
the exact margin both match, yet recalcPointsForMatch awards 2, the
middle tier, because a zero stored margin is falsy in the JavaScript
condition. -/
theorem c4_zero_margin_exact_match_gets_middle_tier :
    (⟨("Leinster"), 0⟩ : Prediction).winner = ("Leinster") ∧
    (⟨("Leinster"), 0⟩ : Prediction).margin = 0 ∧
    recalcPredPoints (("Leinster")) (some 0) ⟨("Leinster"), 0⟩ = 2 ∧
    ¬ recalcPredPoints (("Leinster")) (some 0) ⟨("Leinster"), 0⟩ = 3 := by
  decide

/-- C4 (amended): for every present result whose margin is nonzero the
claim holds as stated: 3 points when the predicted winner and the exact
margin both match, 2 points when only the winner matches, 0 otherwise,
and the tiers satisfy 3 at least 2 and 2 above 0.  When the stored
margin is zero, an exact match still earns only the middle tier. -/
theorem c4_scorer_tiers (p : Prediction) (w : String) (mg : Nat) (h : ¬ mg = 0) :
    (p.winner = w ∧ p.margin = mg → recalcPredPoints w (some mg) p = 3) ∧
    (p.winner = w ∧ ¬ p.margin = mg → recalcPredPoints w (some mg) p = 2) ∧
    (¬ p.winner = w → recalcPredPoints w (some mg) p = 0) ∧
    (3 : Nat) ≥ 2 ∧ (2 : Nat) > 0 := by
  refine ⟨?_, ?_, ?_, by decide, by decide⟩
  · rintro ⟨h1, h2⟩
    simp [recalcPredPoints, marginHit, h1, h2, h]
  · rintro ⟨h1, h2⟩
    simp [recalcPredPoints, marginHit, h1, h2, h]
  · intro h1
    simp [recalcPredPoints, h1]

/-- C4 witness: the amended theorem applied to a margin 6 result. -/
theorem c4_scorer_tiers_witness :
    ¬ (6 : Nat) = 0 ∧
    (((⟨("Leinster"), 6⟩ : Prediction).winner = ("Leinster") ∧
        (⟨("Leinster"), 6⟩ : Prediction).margin = 6 →
        recalcPredPoints (("Leinster")) (some 6) ⟨("Leinster"), 6⟩ = 3) ∧
      ((⟨("Leinster"), 6⟩ : Prediction).winner = ("Leinster") ∧
        ¬ (⟨("Leinster"), 6⟩ : Prediction).margin = 6 →
        recalcPredPoints (("Leinster")) (some 6) ⟨("Leinster"), 6⟩ = 2) ∧
      (¬ (⟨("Leinster"), 6⟩ : Prediction).winner = ("Leinster") →
        recalcPredPoints (("Leinster")) (some 6) ⟨("Leinster"), 6⟩ = 0) ∧
      (3 : Nat) ≥ 2 ∧ (2 : Nat) > 0) :=
  ⟨by decide, c4_scorer_tiers ⟨("Leinster"), 6⟩ (("Leinster")) 6 (by decide)⟩

-- ===== C10: draws are never attached =====

theorem updateOne_of_winner_none (r : CjsScraped) (hw : r.winner = none) (m : MatchRec) :
    updateOne r m = (m, 0) := by
  unfold updateOne
  rw [hw]
  simp

theorem foldl_procStep_id (r : CjsScraped) (hone : ∀ m, updateOne r m = (m, 0)) :
    ∀ (ms : List MatchRec) (acc : List MatchRec × Nat),
      ms.foldl (procStep r) acc = (acc.1 ++ ms, acc.2) := by
  intro ms
  induction ms with
  | nil => intro acc; simp
  | cons m t ih =>
    intro acc
    have hstep : procStep r acc m = (acc.1 ++ [m], acc.2) := by
      simp [procStep, hone m]
    rw [List.foldl_cons, hstep, ih]
    simp

/-- C10: a scraped record with equal scores carries a null winner, and
the reconciler of src/utils/resultsUpdater.cjs leaves every fixture
store unchanged for it and counts no update, both for the per-record
inner loop and for a run over just that record. -/
theorem c10_draw_record_never_attached (ms : List MatchRec) (d : Int) (t1 t2 : String) (s : Nat) :
    (mkCjsRow d t1 t2 s s).winner = none ∧
    processRecord ms (mkCjsRow d t1 t2 s s) = (ms, 0) ∧
    runRecords ms [mkCjsRow d t1 t2 s s] = (ms, 0) := by
  have hw : (mkCjsRow d t1 t2 s s).winner = none := by
    simp [mkCjsRow]
  have hproc : processRecord ms (mkCjsRow d t1 t2 s s) = (ms, 0) := by
    unfold processRecord
    rw [foldl_procStep_id (mkCjsRow d t1 t2 s s) (updateOne_of_winner_none _ hw) ms ([], 0)]
    simp
  refine ⟨hw, hproc, ?_⟩
  unfold runRecords
  simp [hproc]

-- ===== C9: windowed scrape =====

theorem fetchWindowLoop_step {σ : Type} (fetch : Int → Option (List σ)) (acc : List σ) (d : Int) :
    (match fetch d with
      | some rs => acc ++ rs
      | none => acc) = acc ++ (fetch d).getD [] := by
  cases fetch d with
  | some rs => simp
  | none => simp

theorem fetchWindowLoop_eq_flatten {σ : Type} (fetch : Int → Option (List σ)) :
    ∀ (dates : List Int) (acc : List σ),
      dates.foldl (fun acc d =>
        match fetch d with
        | some rs => acc ++ rs
        | none => acc) acc = acc ++ (dates.map (fun d => (fetch d).getD [])).flatten := by
  intro dates
  induction dates with
  | nil => intro acc; simp
  | cons d t ih =>
    intro acc
    rw [List.foldl_cons, fetchWindowLoop_step fetch acc d, ih]
    simp

/-- C9: the windowed scrape of src/unnamed/part_000 returns exactly the
concatenation of the per-date results over every date of the inclusive
window from center minus daysBack to center plus daysForward, where a
date whose fetch throws, because of a network error or a non-success
HTTP status, contributes the empty list and every other date still
contributes its rows: the loop catches the per-date error and continues
instead of aborting. -/
theorem c9_fetch_window_concat_fault_isolated {σ : Type} (fetch : Int → Option (List σ))
    (center : Int) (back fwd : Nat) :
    scrapeWindow fetch center back fwd =
      ((List.range (back + fwd + 1)).map
        (fun i => (fetch (center - (back : Int) + (i : Int))).getD [])).flatten := by
  unfold scrapeWindow fetchWindowLoop
  rw [fetchWindowLoop_eq_flatten fetch (getDatesInRange center back fwd) []]
  simp [getDatesInRange, List.map_map]
  rfl

-- ===== C5: import dedup =====

theorem mkey_set_id (m : MatchRec) (n : Nat) : mkey { m with id := n } = mkey m := rfl

theorem upsertStep_keys_mono (acc : List MatchRec × Nat) (m : MatchRec)
    (k : Nat × Int × String × String) (hk : k ∈ acc.1.map mkey) :
    k ∈ (upsertStep acc m).1.map mkey := by
  unfold upsertStep
  by_cases h : mkey m ∈ acc.1.map mkey
  · simpa [h] using hk
  · simp only [h, if_false]
    simp only [List.map_append, List.mem_append]
    exact Or.inl hk

theorem upsertStep_key_self (acc : List MatchRec × Nat) (m : MatchRec) :
    mkey m ∈ (upsertStep acc m).1.map mkey := by
  unfold upsertStep
  by_cases h : mkey m ∈ acc.1.map mkey
  · simp [h]
  · simp only [h, if_false]
    simp only [List.map_append, List.mem_append]
    right
    simp [mkey_set_id]

theorem upsert_foldl_keys_mono (feed : List MatchRec) :
    ∀ (acc : List MatchRec × Nat) (k : Nat × Int × String × String),
      k ∈ acc.1.map mkey → k ∈ (feed.foldl upsertStep acc).1.map mkey := by
  induction feed with
  | nil => intro acc k hk; simpa using hk
  | cons f fs ih =>
    intro acc k hk
    rw [List.foldl_cons]
    exact ih (upsertStep acc f) k (upsertStep_keys_mono acc f k hk)

theorem upsert_foldl_keys_feed (feed : List MatchRec) :
    ∀ (acc : List MatchRec × Nat) (m : MatchRec), m ∈ feed →
      mkey m ∈ (feed.foldl upsertStep acc).1.map mkey := by
  induction feed with
  | nil => intro acc m hm; cases hm
  | cons f fs ih =>
    intro acc m hm
    rw [List.foldl_cons]
    cases List.mem_cons.mp hm with
    | inl h =>
      subst h
      exact upsert_foldl_keys_mono fs (upsertStep acc m) (mkey m) (upsertStep_key_self acc m)
    | inr h => exact ih (upsertStep acc f) m h

theorem upsert_foldl_noop (feed : List MatchRec) :
    ∀ (s : List MatchRec) (n : Nat), (∀ m ∈ feed, mkey m ∈ s.map mkey) →
      feed.foldl upsertStep (s, n) = (s, n) := by
  induction feed with
  | nil => intro s n _; rfl
  | cons f fs ih =>
    intro s n h
    rw [List.foldl_cons]
    have hstep : upsertStep (s, n) f = (s, n) := by
      unfold upsertStep
      simp only [h f (List.mem_cons_self f fs), if_true]
    rw [hstep]
    exact ih s n (fun m hm => h m (List.mem_cons_of_mem f hm))

/-- C5 (amended): the dedup identity of upsertMatchesForCompetition is
the competition id, the two team names in sorted order, and the exact
kickoff value, with no 48 hour bucketing: re-importing a feed whose
kickoffs are unchanged adds nothing, the second import returns the store
of the first import untouched with an added count of 0, for every stored
list and every feed.  Kickoff drift inside the 48 hour bucket is not
absorbed, as the counterexample shows. -/
theorem c5_reimport_same_feed_adds_zero (stored feed : List MatchRec) :
    upsertMatchesForCompetition (upsertMatchesForCompetition stored feed).1 feed =
      ((upsertMatchesForCompetition stored feed).1, 0) := by
  unfold upsertMatchesForCompetition
  exact upsert_foldl_noop feed (feed.foldl upsertStep (stored, 0)).1 0
    (fun m hm => upsert_foldl_keys_feed feed (stored, 0) m hm)

/-- C5 counterexample: the same event re-imported with a kickoff 12
hours later, inside the same 48 hour bucket as the first kickoff, is
added again: the second import adds 1, not 0, because the key uses the
exact kickoff value. -/
theorem c5_kickoff_drift_adds_duplicate :
    c5First.competitionId = c5Drifted.competitionId ∧
    c5First.teamA = c5Drifted.teamA ∧
    c5First.teamB = c5Drifted.teamB ∧
    c5First.kickoff / 172800000 = c5Drifted.kickoff / 172800000 ∧
    (upsertMatchesForCompetition
      (upsertMatchesForCompetition [] [c5First]).1 [c5Drifted]).2 = 1 ∧
    ((upsertMatchesForCompetition
      (upsertMatchesForCompetition [] [c5First]).1 [c5Drifted]).1).length = 2 := by
  decide

-- ===== C1: already-resolved fixtures =====

/-- C1: the updater of src/utils/teamAliases.js overwrites a fixture
that already carries a confirmed result: starting from a store whose
only fixture holds winner Leinster margin 6, one run over a scraped
record claiming a Munster win by 10 replaces the stored result with
winner Munster margin 10 and counts it as an update, refuting the claim
that a reconciliation run never replaces a present result. -/
theorem c1_teamAliases_overwrites_resolved :
    taFixtureResolved.result = some ⟨some (("Leinster")), some 6⟩ ∧
    (taUpdateRun [] [taFixtureResolved] [taRecMunsterWin]).1 =
      [{ taFixtureResolved with result := some ⟨some (("Munster")), some 10⟩ }] ∧
    (taUpdateRun [] [taFixtureResolved] [taRecMunsterWin]).2 = 1 := by
  decide

-- ===== C2: reconciliation idempotence =====

/-- C2: running the updater of src/utils/teamAliases.js twice over the
same scraped list is not idempotent in its reported count: the first run
attaches the result and reports 1, and the second run over the exact
same list rewrites the same fixture and again reports 1, not the 0 the
claim requires for a fixture the first run touched. -/
theorem c2_teamAliases_second_run_counts_again :
    (taUpdateRun [] [taFixtureOpen] [taRecLeinsterWin]).2 = 1 ∧
    (taUpdateRun [] (taUpdateRun [] [taFixtureOpen] [taRecLeinsterWin]).1
      [taRecLeinsterWin]).2 = 1 ∧
    ¬ (taUpdateRun [] (taUpdateRun [] [taFixtureOpen] [taRecLeinsterWin]).1
      [taRecLeinsterWin]).2 = 0 := by
  decide

-- ===== C6: matching symmetry =====

/-- C6: the matcher of src/utils/updateResultsFromSources.js is not
symmetric in team orientation: the row with home Leinster away Munster
is found for the stored Leinster versus Munster fixture, but the swapped
row, the same game with teams and scores exchanged and the same winner,
matches no row for that fixture, refuting the claim that a swapped
record matches the same stored fixture. -/
theorem c6_urfs_matcher_not_orientation_symmetric :
    c6RowML.home = c6RowLM.away ∧
    c6RowML.away = c6RowLM.home ∧
    c6RowML.homeScore = c6RowLM.awayScore ∧
    c6RowML.awayScore = c6RowLM.homeScore ∧
    c6RowML.winner = c6RowLM.winner ∧
    urfsFindFor [] [c6RowLM] c6Fixture = some c6RowLM ∧
    urfsFindFor [] [c6RowML] c6Fixture = none := by
  decide

-- ===== C8: competition refresh =====

/-- C8: the refresh route of src/server.js replaces every fixture of the
refreshed competition with freshly parsed entries whose result is winner
null margin null: after refreshing competition 1, the store no longer
contains the resolved fixture, no fixture of the competition carries a
resolved winner, and the confirmed result is gone, refuting the claim
that a re-import never touches results and never deletes fixtures. -/
theorem c8_refresh_deletes_resolved_fixture :
    hasResolvedWinner taFixtureResolved = true ∧
    refreshReplace [taFixtureResolved] 1 [c8Fresh] = [c8Fresh] ∧
    (refreshReplace [taFixtureResolved] 1 [c8Fresh]).all
      (fun m => !(hasResolvedWinner m)) = true ∧
    ¬ taFixtureResolved ∈ refreshReplace [taFixtureResolved] 1 [c8Fresh] := by
  decide
